import Mathlib

/-!
Verification development for the forumbee-api-discussion-extract scripts.

The repository consists of four Python scripts (get-categories.py,
get-categories-post-list.py, get-post-text.py, test-connection.py) that call
a REST API, decode CSV/JSON pages, paginate, and write CSV files.  Below we
shallowly embed the relevant parts: records are association lists mirroring
Python dicts produced by csv.DictReader, the pagination loop of
get-post-text.py is a fuelled recursion over a server oracle, and the domain
validation of test-connection.py is a decidable matcher equivalent to the
source regular expression.
-/

/-- A Python value as it appears in the records handled by the scripts:
a CSV cell string, Python None (csv restval), or a list of surplus cells
(csv.DictReader restkey value). -/
inductive PyVal where
  | str (s : String)
  | none
  | strList (l : List String)
deriving DecidableEq, Repr

/-- A Python dict key in these records: a field name, or Python None
(the csv.DictReader restkey). -/
abbrev RKey := Option String

/-- A record: one decoded category or post, a Python dict from field name to
value, represented as an association list in insertion order (Python 3.7+
dicts preserve insertion order). -/
abbrev Record := List (RKey × PyVal)

/-- Python dict insertion `d[k] = v`: updating an existing key keeps its
position, a fresh key is appended. -/
def dictInsert (d : Record) (k : RKey) (v : PyVal) : Record :=
  if d.any (fun kv => kv.1 = k) then
    d.map (fun kv => if kv.1 = k then (k, v) else kv)
  else d ++ [(k, v)]

/-- `dict(zip(ks, vs))` as used by csv.DictReader: zip truncates to the
shorter list, later occurrences of a key overwrite earlier ones. -/
def dictOfZip (ks vs : List String) : Record :=
  (List.zip ks vs).foldl (fun d kv => dictInsert d (some kv.1) (PyVal.str kv.2)) []

/-- Keys of a record, in insertion order (Python `d.keys()`). -/
def recordKeys (d : Record) : List RKey :=
  d.map Prod.fst

/-- Python `d.get(k)`. -/
def dictGet (d : Record) (k : RKey) : Option PyVal :=
  (d.find? (fun kv => kv.1 = k)).map Prod.snd

/-- One row of csv.DictReader: `d = dict(zip(fieldnames, row))`; surplus
cells go under the restkey None as a list, missing fields are filled with
the restval None. -/
def dictReaderRow (fieldnames row : List String) : Record :=
  let d := dictOfZip fieldnames row
  if fieldnames.length < row.length then
    dictInsert d Option.none (PyVal.strList (row.drop fieldnames.length))
  else if row.length < fieldnames.length then
    (fieldnames.drop row.length).foldl (fun d k => dictInsert d (some k) PyVal.none) d
  else d

/-- Split a character list on a separator; the model of splitting a response
body into lines and a CSV line into cells (the bodies the scripts consume do
not use quoted fields). -/
def splitOnCh (sep : Char) : List Char → List (List Char)
  | [] => [[]]
  | c :: rest =>
    if c = sep then [] :: splitOnCh sep rest
    else
      match splitOnCh sep rest with
      | [] => [[c]]
      | p :: ps => (c :: p) :: ps

/-- csv row tokenization of one line: a blank line is the empty row,
otherwise cells are the comma-separated pieces. -/
def parseCsvLine (line : List Char) : List String :=
  if line = [] then [] else (splitOnCh (',') line).map (fun cs => String.mk cs)

/-- Lines of a response body as the csv module iterates them: split on
newline, a single final newline terminates the last row instead of opening
an empty one. -/
def splitRecordLines (body : List Char) : List (List Char) :=
  let ls := splitOnCh ('\n') body
  if ls.getLast? = some [] then ls.dropLast else ls

/-- csv.DictReader over already tokenized rows: the first row is the header
naming the fields, blank rows are skipped, every other row becomes a record. -/
def csvRecordsOfRows : List (List String) → List Record
  | [] => []
  | fieldnames :: rows =>
    (rows.filter (fun r => !r.isEmpty)).map (dictReaderRow fieldnames)

/-- `list(csv.DictReader(StringIO(response.text)))` as performed by
get-post-text.py (lines 118-121) and get-categories-post-list.py. -/
def csvDictRead (body : String) : List Record :=
  csvRecordsOfRows ((splitRecordLines body.data).map parseCsvLine)

namespace TestConnection

/-!
Model of src/test-connection.py.  `validate_domain` (lines 18-46) strips a
protocol and trailing slashes and tests the result against the regular
expression

  `[a-zA-Z0-9][a-zA-Z0-9-]{0,61}[a-zA-Z0-9](\.[a-zA-Z0-9][a-zA-Z0-9-]{0,61}[a-zA-Z0-9])*\.[a-zA-Z]{2,}`

anchored at both ends (re.match plus a final dollar; the dollar also accepts
one trailing newline).  Since the dot is the only separator the pattern can
cross, the whole-string match is equivalent to: split the string on dots, the
last piece matches the TLD part and every earlier piece matches the label
part, with at least one label.  The matcher below is written in that split
form, one definition per regex piece.
-/

/-- `re.sub("^https?://", "", domain)`: drop one leading protocol prefix. -/
def stripProtocol (l : List Char) : List Char :=
  if l.take 8 = ("https://").data then l.drop 8
  else if l.take 7 = ("http://").data then l.drop 7
  else l

/-- `domain.rstrip("/")`: drop all trailing slashes. -/
def rstripSlashes (l : List Char) : List Char :=
  (l.reverse.dropWhile (fun c => c = '/')).reverse

/-- The cleaned domain: protocol prefix then trailing slashes removed. -/
def cleanDomain (l : List Char) : List Char :=
  rstripSlashes (stripProtocol l)

/-- Regex piece `[a-zA-Z0-9-]{0,61}[a-zA-Z0-9]`: a nonempty tail of label
characters whose last character is alphanumeric (the length bound is kept in
`isLabel`). -/
def isLabelCore : List Char → Bool
  | [] => false
  | [c] => c.isAlphanum
  | c :: rest => (c.isAlphanum || c = '-') && isLabelCore rest

/-- Regex piece `[a-zA-Z0-9][a-zA-Z0-9-]{0,61}[a-zA-Z0-9]`: one dot-free
domain label, 2 to 63 characters. -/
def isLabel : List Char → Bool
  | [] => false
  | c :: rest => c.isAlphanum && isLabelCore rest && decide (rest.length ≤ 62)

/-- Regex piece `[a-zA-Z]{2,}`: the final TLD segment, letters only. -/
def isTLD (l : List Char) : Bool :=
  decide (2 ≤ l.length) && l.all (fun c => c.isAlpha)

/-- The dot-separated pieces of the domain pattern: at least one label
followed by the TLD segment. -/
def checkParts : List (List Char) → Bool
  | [] => false
  | [_] => false
  | [lab, tld] => isLabel lab && isTLD tld
  | lab :: rest => isLabel lab && checkParts rest

/-- Whole-string match of the source domain regex; `re.match` with a final
dollar also accepts a single trailing newline. -/
def domainMatch (l : List Char) : Bool :=
  let core := if l.getLast? = some '\n' then l.dropLast else l
  checkParts (splitOnCh ('.') core)

/-- The ValueError message raised by validate_domain (abridged: the source
text continues with two example domains). -/
def invalidDomainMsg : String :=
  "Invalid domain format. Please provide a valid domain"

/-- validate_domain (test-connection.py lines 18-46): clean the string, raise
ValueError if the regex rejects it, otherwise return the cleaned string. -/
def validate_domain (domain : String) : Except String String :=
  let d := cleanDomain domain.data
  if domainMatch d then Except.ok (String.mk d)
  else Except.error invalidDomainMsg

/-- Outcome of the one GET request test_connection can make. -/
inductive ConnOutcome where
  | resp (status : Nat) (body : String)
  | transportFailure (msg : String)

/-- What test_connection prints at the end of each control path. -/
inductive TestConnReport where
  | connectionSuccess
  | httpFailure (status : Nat)
  | otherFailure
deriving DecidableEq, Repr

/-- test_connection (test-connection.py lines 48-86): validate the domain
outside the try block (a ValueError propagates, first component .error),
then issue one GET; the second component lists the URLs requested.
`requests.Response.raise_for_status` raises exactly for statuses 400-599. -/
def test_connection (api_token domain : String) (net : String → ConnOutcome) :
    Except String TestConnReport × List String :=
  match validate_domain domain with
  | Except.error e => (Except.error e, [])
  | Except.ok clean_domain =>
    let test_url := "https://" ++ clean_domain ++ "/api/2/posts"
    match net test_url with
    | ConnOutcome.resp s _ =>
      if 400 ≤ s ∧ s < 600 then (Except.ok (TestConnReport.httpFailure s), [test_url])
      else (Except.ok TestConnReport.connectionSuccess, [test_url])
    | ConnOutcome.transportFailure _ => (Except.ok TestConnReport.otherFailure, [test_url])

end TestConnection

/-- The Python exceptions the scripts can see at a query call site.
requests.exceptions.HTTPError is a RequestException, and both are
Exceptions; the models below keep the flat tags and mirror the handler
chains of the source, whose first matching handler wins. -/
inductive PyErr where
  | httpError (status : Nat) (body : String)
  | requestError (msg : String)
  | valueError (msg : String)
  | otherError (msg : String)
deriving DecidableEq, Repr

/-- Outcome of one `requests.get` call: a response with its status code and
body, or a transport-level failure (DNS, timeout, connection reset). -/
inductive CallOutcome where
  | response (status : Nat) (body : String)
  | transportFailure (msg : String)

/-- `requests.Response.raise_for_status`: raises HTTPError exactly for
status codes 400-599. -/
def raise_for_status (status : Nat) (body : String) : Except PyErr Unit :=
  if 400 ≤ status ∧ status < 600 then Except.error (PyErr.httpError status body)
  else Except.ok ()

/-- The shared body of the single-call query operations: one GET (a transport
failure surfaces as a RequestException), raise_for_status, then decode the
body; `decode` abstracts the CSV or JSON parsing of the response text, whose
failure is the Decode Error case. -/
def fetchBody (call : CallOutcome) (decode : String → Except PyErr (List Record)) :
    Except PyErr (List Record) :=
  match call with
  | CallOutcome.transportFailure m => Except.error (PyErr.requestError m)
  | CallOutcome.response s b =>
    match raise_for_status s b with
    | Except.error e => Except.error e
    | Except.ok _ => decode b

namespace GetCategories

/-- get_all_categories (get-categories.py lines 14-72): one GET, decode,
return the records; the handler chain (HTTPError, RequestException,
Exception) logs and returns the empty list. -/
def get_all_categories (call : CallOutcome) (decode : String → Except PyErr (List Record)) :
    Except PyErr (List Record) :=
  match fetchBody call decode with
  | Except.ok categories => Except.ok categories
  | Except.error (PyErr.httpError _ _) => Except.ok []
  | Except.error (PyErr.requestError _) => Except.ok []
  | Except.error _ => Except.ok []

end GetCategories

namespace GetCategoriesPostList

/-- get_posts_for_category (get-categories-post-list.py lines 69-111): a
single unpaginated GET; the lone `except Exception` handler logs and
returns the empty list. -/
def get_posts_for_category (call : CallOutcome) (decode : String → Except PyErr (List Record)) :
    Except PyErr (List Record) :=
  match fetchBody call decode with
  | Except.ok posts => Except.ok posts
  | Except.error _ => Except.ok []

end GetCategoriesPostList

namespace GetPostText

/-- What one iteration of the pagination loop of get-post-text.py observes
for a given offset: the decoded page on success, the HTTPError that
raise_for_status raised on a non-2xx response, or any other exception of the
iteration (transport or decode failure). -/
inductive FetchOutcome where
  | success (posts : List Record)
  | httpError (status : Nat)
  | otherError

/-- How a terminated pagination loop ended exceptionally, if it did. -/
inductive FetchErr where
  | http (status : Nat)
  | other
deriving DecidableEq, Repr

/-- Final state of the pagination loop: the accumulated records, the offsets
of the GET calls issued in order, and the exception (if any) whose handler
broke the loop. -/
structure FetchState where
  all_posts : List Record
  calls : List Nat
  err : Option FetchErr
deriving DecidableEq, Repr

/-- The `while True` pagination loop of get_posts_for_category
(get-post-text.py lines 103-137).  Each iteration issues the GET at the
current offset; any exception breaks the loop (the handler at line 134),
an empty page breaks before extending, a short page breaks after extending,
and a full page advances the offset by `limit`.  `fuel` bounds the number of
iterations; `Option.none` models a run that has not terminated within it. -/
def get_posts_loop (server : Nat → FetchOutcome) (limit : Nat) :
    Nat → Nat → List Record → List Nat → Option FetchState
  | 0, _, _, _ => Option.none
  | fuel + 1, offset, all_posts, calls =>
    match server offset with
    | FetchOutcome.httpError s =>
        some ⟨all_posts, calls ++ [offset], some (FetchErr.http s)⟩
    | FetchOutcome.otherError =>
        some ⟨all_posts, calls ++ [offset], some FetchErr.other⟩
    | FetchOutcome.success posts =>
      if posts.isEmpty then some ⟨all_posts, calls ++ [offset], Option.none⟩
      else if posts.length < limit then
        some ⟨all_posts ++ posts, calls ++ [offset], Option.none⟩
      else
        get_posts_loop server limit fuel (offset + limit) (all_posts ++ posts) (calls ++ [offset])

/-- get_posts_for_category (get-post-text.py lines 81-139): run the
pagination loop from offset 0 with the source's page size, limit = 1000. -/
def get_posts_for_category (server : Nat → FetchOutcome) (fuel : Nat) : Option FetchState :=
  get_posts_loop server 1000 fuel 0 [] []

/-- One loop iteration at this page's outcome terminates the loop: an
exception, or a page shorter than the page size. -/
def terminalOutcome (o : FetchOutcome) (limit : Nat) : Bool :=
  match o with
  | FetchOutcome.success posts => posts.length < limit
  | _ => true

/-- Filename sanitization of save_posts_to_csv (get-post-text.py lines
153-155): keep only alphanumerics (modelled on the ASCII range the category
names use), space, hyphen and underscore, strip surrounding whitespace, then
turn every space into an underscore. -/
def safe_category_name (category_name : String) : String :=
  let filtered := category_name.data.filter
    (fun c => c.isAlphanum || c = ' ' || c = '-' || c = '_')
  let stripped := (filtered.dropWhile (fun c => c.isWhitespace)).reverse
    |>.dropWhile (fun c => c.isWhitespace) |>.reverse
  String.mk (stripped.map (fun c => if c = ' ' then '_' else c))

/-- The output filename (get-post-text.py lines 158-161):
timestamp, sanitized category name, and the fixed suffix. -/
def output_filename (timestamp category_name : String) : String :=
  timestamp ++ ("_" ++ (safe_category_name category_name ++ "_posts.csv"))

/-- One row prepared by csv.DictWriter._dict_to_list with the default
extrasaction "raise" and restval "": a record holding a key outside the
field names raises ValueError, otherwise the record is projected onto the
field names in order, absent fields becoming the empty string. -/
def dict_to_list (fieldnames : List RKey) (row : Record) : Except PyErr (List PyVal) :=
  if (recordKeys row).all (fun k => decide (k ∈ fieldnames)) then
    Except.ok (fieldnames.map (fun k => (dictGet row k).getD (PyVal.str "")))
  else Except.error (PyErr.valueError "dict contains fields not in fieldnames")

/-- csv.DictWriter.writerows writes row by row: the rows written before a
failing record stay written, and the ValueError is reported alongside. -/
def writerowsAcc (fieldnames : List RKey) :
    List Record → List (List PyVal) → List (List PyVal) × Option PyErr
  | [], acc => (acc, Option.none)
  | r :: rs, acc =>
    match dict_to_list fieldnames r with
    | Except.ok row => writerowsAcc fieldnames rs (acc ++ [row])
    | Except.error e => (acc, some e)

/-- The one file write save_posts_to_csv performs: its path, the header row
(the field names), the data rows actually written, and the exception that
interrupted the write, if any. -/
structure CsvFileWrite where
  path : String
  headerRow : List RKey
  dataRows : List (List PyVal)
  raised : Option PyErr
deriving DecidableEq, Repr

/-- save_posts_to_csv (get-post-text.py lines 141-170): an empty posts list
returns immediately with no filesystem effect (`Option.none`); otherwise the
file is created and written with DictWriter using the first record's keys as
field names.  The timestamp is an input of the model. -/
def save_posts_to_csv (posts : List Record) (category_name output_dir timestamp : String) :
    Option CsvFileWrite :=
  if posts.isEmpty then Option.none
  else
    let filename := output_filename timestamp category_name
    let fieldnames := recordKeys (posts.headD [])
    let written := writerowsAcc fieldnames posts []
    some ⟨output_dir ++ ("/" ++ filename), fieldnames, written.1, written.2⟩

/-- The pages (or call offsets) visited from call index `j` on, as a list:
`[f j, f (j+1), ..., f (j+n-1)]`. -/
def iterFrom {α : Type} (f : Nat → α) : Nat → Nat → List α
  | _, 0 => []
  | j, n + 1 => f j :: iterFrom f (j + 1) n

/-- Example server for the R = 2500, N = 1000 pagination scenario: pages of
1000, 1000 and 500 records, nothing beyond. -/
def examplePages (k : Nat) : List Record :=
  if k < 2 then List.replicate 1000 [(some ("postKey"), PyVal.str ("x"))]
  else if k = 2 then List.replicate 500 [(some ("postKey"), PyVal.str ("x"))]
  else []

/-- The server oracle for `examplePages`, keyed by request offset. -/
def exampleServer (offset : Nat) : FetchOutcome :=
  FetchOutcome.success (examplePages (offset / 1000))

/-- Example server for the exact-multiple scenario: one page of exactly 1000
records, then empty pages. -/
def exactPages (k : Nat) : List Record :=
  if k = 0 then List.replicate 1000 [(some ("postKey"), PyVal.str ("y"))] else []

/-- The server oracle for `exactPages`, keyed by request offset. -/
def exactServer (offset : Nat) : FetchOutcome :=
  FetchOutcome.success (exactPages (offset / 1000))

/-- A server that answers HTTP 401 to every request. -/
def err401Server (_ : Nat) : FetchOutcome :=
  FetchOutcome.httpError 401

end GetPostText

/-! ### Sanity checks of the embedding on concrete inputs -/

example : csvDictRead ("postKey,title" ++ "\n" ++ "K,T") =
    [[(some ("postKey"), PyVal.str ("K")), (some ("title"), PyVal.str ("T"))]] := by
  decide

example : csvDictRead ("postKey,title" ++ "\n" ++ "a,b,c") =
    [[(some ("postKey"), PyVal.str ("a")), (some ("title"), PyVal.str ("b")),
      (Option.none, PyVal.strList ["c"])]] := by
  decide

example : TestConnection.domainMatch (("example.com").data) = true := by decide
example : TestConnection.domainMatch (("not a domain").data) = false := by decide
example : TestConnection.domainMatch (("sub.example.com").data) = true := by decide
example : TestConnection.validate_domain ("https://example.com/") =
    Except.ok ("example.com") := rfl
example : GetPostText.safe_category_name ("Q&A / Support!") = "QA__Support" := by decide

/-! ### Pagination loop lemmas -/

namespace GetPostText

theorem iterFrom_eq {α : Type} (f : Nat → α) :
    ∀ (n j : Nat), iterFrom f j n = (List.range n).map (fun i => f (j + i)) := by
  intro n
  induction n with
  | zero => intro j; rfl
  | succ n ih =>
    intro j
    have h1 : iterFrom f j (n + 1) = f j :: iterFrom f (j + 1) n := rfl
    rw [h1, ih, List.range_succ_eq_map, List.map_cons, List.map_map]
    congr 1
    apply List.map_congr_left
    intro a _
    simp only [Function.comp]
    congr 1
    omega

/-- Processing `n` consecutive full pages advances the loop `n` iterations,
accumulating those pages and recording one call per page. -/
theorem get_posts_loop_advance (server : Nat → FetchOutcome) (limit : Nat)
    (pages : Nat → List Record) (hlim : 0 < limit) :
    ∀ (n fuel j : Nat) (acc : List Record) (calls : List Nat),
    n ≤ fuel →
    (∀ i, i < n → server ((j + i) * limit) = FetchOutcome.success (pages (j + i)) ∧
      limit ≤ (pages (j + i)).length) →
    get_posts_loop server limit fuel (j * limit) acc calls =
      get_posts_loop server limit (fuel - n) ((j + n) * limit)
        (acc ++ (iterFrom pages j n).flatten)
        (calls ++ iterFrom (fun k => k * limit) j n) := by
  intro n
  induction n with
  | zero =>
    intro fuel j acc calls _ _
    simp [iterFrom]
  | succ n ih =>
    intro fuel j acc calls hn hfull
    cases fuel with
    | zero => omega
    | succ fuel =>
      have h0 := hfull 0 (Nat.succ_pos n)
      rw [Nat.add_zero] at h0
      have hne : (pages j).isEmpty = false := by
        cases hp : pages j with
        | nil => rw [hp] at h0; simp at h0; omega
        | cons a l => simp
      have hnlt : ¬ (pages j).length < limit := Nat.not_lt.mpr h0.2
      have hstep : get_posts_loop server limit (fuel + 1) (j * limit) acc calls =
          get_posts_loop server limit fuel (j * limit + limit)
            (acc ++ pages j) (calls ++ [j * limit]) := by
        simp [get_posts_loop, h0.1, hne, hnlt]
      rw [hstep, show j * limit + limit = (j + 1) * limit by ring]
      have hfull' : ∀ i, i < n →
          server ((j + 1 + i) * limit) = FetchOutcome.success (pages (j + 1 + i)) ∧
          limit ≤ (pages (j + 1 + i)).length := by
        intro i hi
        have := hfull (i + 1) (by omega)
        rwa [show j + (i + 1) = j + 1 + i by ring] at this
      rw [ih fuel (j + 1) (acc ++ pages j) (calls ++ [j * limit]) (by omega) hfull']
      have e1 : iterFrom pages j (n + 1) = pages j :: iterFrom pages (j + 1) n := rfl
      have e2 : iterFrom (fun k => k * limit) j (n + 1) =
          j * limit :: iterFrom (fun k => k * limit) (j + 1) n := rfl
      rw [e1, e2]
      simp [List.flatten_cons, List.append_assoc, Nat.succ_sub_succ,
        show j + 1 + n = j + (n + 1) by ring]

/-- A page strictly shorter than the page size terminates the loop, the page
(empty or not) still contributing its records. -/
theorem get_posts_loop_short (server : Nat → FetchOutcome) (limit : Nat)
    (fuel j : Nat) (ps acc : List Record) (calls : List Nat)
    (hs : server (j * limit) = FetchOutcome.success ps)
    (hshort : ps.length < limit) (hfuel : 0 < fuel) :
    get_posts_loop server limit fuel (j * limit) acc calls =
      some ⟨acc ++ ps, calls ++ [j * limit], Option.none⟩ := by
  cases fuel with
  | zero => omega
  | succ fuel =>
    by_cases hemp : ps.isEmpty
    · have hnil : ps = [] := by cases ps with | nil => rfl | cons a l => simp at hemp
      subst hnil
      simp [get_posts_loop, hs]
    · simp [get_posts_loop, hs, hemp, hshort]

/-- An HTTP error terminates the loop at once, keeping the accumulator and
recording the status. -/
theorem get_posts_loop_err (server : Nat → FetchOutcome) (limit : Nat)
    (fuel j s : Nat) (acc : List Record) (calls : List Nat)
    (hs : server (j * limit) = FetchOutcome.httpError s) (hfuel : 0 < fuel) :
    get_posts_loop server limit fuel (j * limit) acc calls =
      some ⟨acc, calls ++ [j * limit], some (FetchErr.http s)⟩ := by
  cases fuel with
  | zero => omega
  | succ fuel => simp [get_posts_loop, hs]

end GetPostText

namespace GetPostText

/-- C1: for every sequence of decoded pages and every positive page size, the
pagination loop of get_posts_for_category returns the concatenation, in fetch
order, of all pages up to and including the first page whose record count is
strictly less than the page size, issuing its k-th GET call at offset
k * limit and making no further call after that short page. -/
theorem C1_paginated_fetch_concat (server : Nat → FetchOutcome) (limit : Nat)
    (pages : Nat → List Record) (t fuel : Nat) (hlim : 0 < limit)
    (hserver : ∀ k, server (k * limit) = FetchOutcome.success (pages k))
    (hfull : ∀ k, k < t → limit ≤ (pages k).length)
    (hshort : (pages t).length < limit)
    (hfuel : t < fuel) :
    get_posts_loop server limit fuel 0 [] [] =
      some ⟨((List.range (t + 1)).map pages).flatten,
            (List.range (t + 1)).map (fun k => k * limit), Option.none⟩ := by
  have hadv := get_posts_loop_advance server limit pages hlim t fuel 0 [] []
    (Nat.le_of_lt hfuel)
    (fun i hi => by
      rw [Nat.zero_add]
      exact ⟨hserver i, hfull i hi⟩)
  rw [Nat.zero_mul] at hadv
  rw [Nat.zero_add] at hadv
  have hend := get_posts_loop_short server limit (fuel - t) t (pages t)
    ((iterFrom pages 0 t).flatten) (iterFrom (fun k => k * limit) 0 t)
    (hserver t) hshort (by omega)
  simp only [List.nil_append] at hadv
  rw [hadv, hend]
  rw [iterFrom_eq, iterFrom_eq]
  simp [List.range_succ, List.flatten_append]

/-- C1 witness: R = 2500, N = 1000; calls at offsets 0, 1000, 2000 return
1000, 1000 and 500 records, the loop stops after the 500-record page with no
further call, returning all 2500 records. -/
theorem C1_paginated_fetch_concat_witness :
    get_posts_for_category exampleServer 3 =
      some ⟨((List.range 3).map examplePages).flatten,
            (List.range 3).map (fun k => k * 1000), Option.none⟩
    ∧ (((List.range 3).map examplePages).flatten).length = 2500
    ∧ ((List.range 3).map (fun k => k * 1000)) = [0, 1000, 2000] := by
  refine ⟨?_, ?_, by decide⟩
  · exact C1_paginated_fetch_concat exampleServer 1000 examplePages 2 3 (by omega)
      (fun k => by
        unfold exampleServer
        rw [Nat.mul_div_cancel _ (by omega : 0 < 1000)])
      (fun k hk => by
        unfold examplePages
        rw [if_pos hk, List.length_replicate])
      (by
        unfold examplePages
        rw [if_neg (by omega), if_pos rfl, List.length_replicate]
        omega)
      (by omega)
  · show (List.map examplePages [0, 1, 2]).flatten.length = 2500
    unfold examplePages
    rw [List.map_cons, List.map_cons, List.map_cons, List.map_nil,
      if_pos (by omega : (0 : Nat) < 2), if_pos (by omega : (1 : Nat) < 2),
      if_neg (by omega : ¬ (2 : Nat) < 2), if_pos rfl,
      List.flatten_cons, List.flatten_cons, List.flatten_cons, List.flatten_nil,
      List.append_nil, List.length_append, List.length_append,
      List.length_replicate, List.length_replicate]

end GetPostText

namespace GetPostText

/-- C2: when the dataset holds exactly m full pages (total R = m * limit, an
exact multiple of the page size, including m = 1) and the page after them is
empty, the pagination loop makes m + 1 calls, the last of which returns zero
records, and returns exactly the R records in server order. -/
theorem C2_exact_multiple_extra_call (server : Nat → FetchOutcome) (limit : Nat)
    (pages : Nat → List Record) (m fuel : Nat) (hlim : 0 < limit)
    (hserver : ∀ k, server (k * limit) = FetchOutcome.success (pages k))
    (hexact : ∀ k, k < m → (pages k).length = limit)
    (hempty : pages m = [])
    (hfuel : m < fuel) :
    get_posts_loop server limit fuel 0 [] [] =
      some ⟨((List.range m).map pages).flatten,
            (List.range (m + 1)).map (fun k => k * limit), Option.none⟩
    ∧ (((List.range m).map pages).flatten).length = m * limit
    ∧ ((List.range (m + 1)).map (fun k => k * limit)).length = m + 1 := by
  refine ⟨?_, ?_, by simp⟩
  · have hadv := get_posts_loop_advance server limit pages hlim m fuel 0 [] []
      (Nat.le_of_lt hfuel)
      (fun i hi => by
        rw [Nat.zero_add]
        exact ⟨hserver i, Nat.le_of_eq (hexact i hi).symm⟩)
    rw [Nat.zero_mul] at hadv
    rw [Nat.zero_add] at hadv
    have hend := get_posts_loop_short server limit (fuel - m) m (pages m)
      ((iterFrom pages 0 m).flatten) (iterFrom (fun k => k * limit) 0 m)
      (hserver m) (by rw [hempty]; simpa using hlim) (by omega)
    simp only [List.nil_append] at hadv
    rw [hadv, hend, hempty]
    rw [iterFrom_eq, iterFrom_eq]
    simp [List.range_succ]
  · rw [List.length_flatten, List.map_map]
    have h2 : (List.range m).map (List.length ∘ pages) =
        List.replicate ((List.range m).map (List.length ∘ pages)).length limit := by
      apply List.eq_replicate_length.mpr
      intro b hb
      obtain ⟨k, hk, rfl⟩ := List.mem_map.mp hb
      exact hexact k (List.mem_range.mp hk)
    rw [h2, List.sum_const_nat]
    simp

/-- C2 witness: a first page with exactly 1000 records and a second page with
0 records; the result equals the first page's records and exactly two calls
were made, at offsets 0 and 1000. -/
theorem C2_exact_multiple_extra_call_witness :
    get_posts_for_category exactServer 2 =
      some ⟨((List.range 1).map exactPages).flatten,
            (List.range 2).map (fun k => k * 1000), Option.none⟩
    ∧ (((List.range 1).map exactPages).flatten).length = 1 * 1000
    ∧ ((List.range 2).map (fun k => k * 1000)).length = 1 + 1 := by
  exact C2_exact_multiple_extra_call exactServer 1000 exactPages 1 2 (by omega)
    (fun k => by
      unfold exactServer
      rw [Nat.mul_div_cancel _ (by omega : 0 < 1000)])
    (fun k hk => by
      unfold exactPages
      rw [if_pos (by omega : k = 0), List.length_replicate])
    (by unfold exactPages; rw [if_neg (by omega)])
    (by omega)

/-- C3: an HTTP error on the call at page index k stops the pagination loop
immediately, with no retry and no further call; the loop returns exactly the
records accumulated from the pages before k, and the reported error carries
the HTTP status code. -/
theorem C3_http_error_partial_result (server : Nat → FetchOutcome) (limit : Nat)
    (pages : Nat → List Record) (k s fuel : Nat) (hlim : 0 < limit)
    (hprev : ∀ j, j < k → server (j * limit) = FetchOutcome.success (pages j) ∧
      limit ≤ (pages j).length)
    (herr : server (k * limit) = FetchOutcome.httpError s)
    (hfuel : k < fuel) :
    get_posts_loop server limit fuel 0 [] [] =
      some ⟨((List.range k).map pages).flatten,
            (List.range (k + 1)).map (fun j => j * limit), some (FetchErr.http s)⟩ := by
  have hadv := get_posts_loop_advance server limit pages hlim k fuel 0 [] []
    (Nat.le_of_lt hfuel)
    (fun i hi => by
      rw [Nat.zero_add]
      exact hprev i hi)
  rw [Nat.zero_mul] at hadv
  rw [Nat.zero_add] at hadv
  have hend := get_posts_loop_err server limit (fuel - k) k s
    ((iterFrom pages 0 k).flatten) (iterFrom (fun j => j * limit) 0 k)
    herr (by omega)
  simp only [List.nil_append] at hadv
  rw [hadv, hend]
  rw [iterFrom_eq, iterFrom_eq]
  simp [List.range_succ]

/-- C3 witness: an HTTP 401 on the first call; the result is the empty list
and the reported HTTP error carries status 401, after exactly one call. -/
theorem C3_http_error_partial_result_witness :
    get_posts_for_category err401Server 1 =
      some ⟨[], [0], some (FetchErr.http 401)⟩ := by
  exact C3_http_error_partial_result err401Server 1000 (fun _ => []) 0 401 1
    (by omega) (fun j hj => absurd hj (by omega)) rfl (by omega)

end GetPostText

namespace GetPostText

/-- If some call within the fuel bound is terminal (an error or a short
page), the pagination loop terminates and returns a state. -/
theorem get_posts_loop_returns (server : Nat → FetchOutcome) (limit : Nat) :
    ∀ (fuel offset : Nat) (acc : List Record) (calls : List Nat),
    (∃ j, j < fuel ∧ terminalOutcome (server (offset + j * limit)) limit = true) →
    ∃ st, get_posts_loop server limit fuel offset acc calls = some st := by
  intro fuel
  induction fuel with
  | zero =>
    intro offset acc calls h
    obtain ⟨j, hj, _⟩ := h
    omega
  | succ fuel ih =>
    intro offset acc calls h
    cases hs : server offset with
    | httpError s =>
      exact ⟨⟨acc, calls ++ [offset], some (FetchErr.http s)⟩, by
        simp [get_posts_loop, hs]⟩
    | otherError =>
      exact ⟨⟨acc, calls ++ [offset], some FetchErr.other⟩, by
        simp [get_posts_loop, hs]⟩
    | success posts =>
      by_cases hemp : posts.isEmpty
      · exact ⟨⟨acc, calls ++ [offset], Option.none⟩, by
          simp [get_posts_loop, hs, hemp]⟩
      · by_cases hshort : posts.length < limit
        · exact ⟨⟨acc ++ posts, calls ++ [offset], Option.none⟩, by
            simp [get_posts_loop, hs, hemp, hshort]⟩
        · obtain ⟨j, hj, hterm⟩ := h
          have hj0 : j ≠ 0 := by
            intro h0
            rw [h0] at hterm
            simp only [Nat.zero_mul, Nat.add_zero] at hterm
            rw [hs] at hterm
            simp [terminalOutcome] at hterm
            omega
          obtain ⟨j, rfl⟩ : ∃ i, j = i + 1 := ⟨j - 1, by omega⟩
          obtain ⟨st, hst⟩ := ih (offset + limit) (acc ++ posts) (calls ++ [offset])
            ⟨j, by omega, by
              have harith : offset + limit + j * limit = offset + (j + 1) * limit := by
                ring
              rw [harith]
              exact hterm⟩
          exact ⟨st, by simp [get_posts_loop, hs, hemp, hshort, hst]⟩

end GetPostText

/-- C6: no query operation raises to its caller.  For every outcome of the
underlying HTTP call and decode, get_all_categories (get-categories.py) and
the unpaginated get_posts_for_category (get-categories-post-list.py) catch
the exception at the failing call and return a list; the paginated
get_posts_for_category (get-post-text.py) catches every per-page exception
inside its loop and, whenever some page within the fuel bound terminates the
loop, returns an accumulated state rather than an exception. -/
theorem C6_errors_never_propagate :
    (∀ (call : CallOutcome) (decode : String → Except PyErr (List Record)),
      ∃ l, GetCategories.get_all_categories call decode = Except.ok l)
  ∧ (∀ (call : CallOutcome) (decode : String → Except PyErr (List Record)),
      ∃ l, GetCategoriesPostList.get_posts_for_category call decode = Except.ok l)
  ∧ (∀ (server : Nat → GetPostText.FetchOutcome) (fuel : Nat),
      (∃ j, j < fuel ∧
        GetPostText.terminalOutcome (server (j * 1000)) 1000 = true) →
      ∃ st, GetPostText.get_posts_for_category server fuel = some st) := by
  refine ⟨?_, ?_, ?_⟩
  · intro call decode
    unfold GetCategories.get_all_categories
    cases h : fetchBody call decode with
    | ok l => exact ⟨l, by simp⟩
    | error e => cases e <;> exact ⟨[], by simp⟩
  · intro call decode
    unfold GetCategoriesPostList.get_posts_for_category
    cases h : fetchBody call decode with
    | ok l => exact ⟨l, by simp⟩
    | error e => exact ⟨[], by simp⟩
  · intro server fuel h
    apply GetPostText.get_posts_loop_returns server 1000 fuel 0 [] []
    simpa using h

/-- C6 witness: concrete instances of all three operations — an HTTP 401
response, a transport failure, and a server whose first page already
errors — each returning a list rather than an exception. -/
theorem C6_errors_never_propagate_witness :
    (∃ l, GetCategories.get_all_categories (CallOutcome.response 401 ("denied"))
      (fun _ => Except.ok []) = Except.ok l)
  ∧ (∃ l, GetCategoriesPostList.get_posts_for_category
      (CallOutcome.transportFailure ("timeout")) (fun _ => Except.ok []) = Except.ok l)
  ∧ (∃ st, GetPostText.get_posts_for_category GetPostText.err401Server 1 = some st) := by
  refine ⟨?_, ?_, ?_⟩
  · exact C6_errors_never_propagate.1 (CallOutcome.response 401 ("denied"))
      (fun _ => Except.ok [])
  · exact C6_errors_never_propagate.2.1 (CallOutcome.transportFailure ("timeout"))
      (fun _ => Except.ok [])
  · exact C6_errors_never_propagate.2.2 GetPostText.err401Server 1
      ⟨0, by omega, by decide⟩

/-- C9: for an empty posts list, save_posts_to_csv returns without performing
any filesystem write, regardless of the category name, output directory and
timestamp. -/
theorem C9_empty_posts_no_write (category_name output_dir timestamp : String) :
    GetPostText.save_posts_to_csv [] category_name output_dir timestamp = Option.none :=
  rfl

/-- C4 counterexample: the category name Q&A / Support! keeps both spaces
around the stripped slash, so the sanitized fragment has two consecutive
underscores, not the single underscore the claim states. -/
theorem C4_sanitized_name_counterexample :
    GetPostText.safe_category_name ("Q&A / Support!") ≠ "QA_Support" := by
  decide

/-- C4 amended: the category name Q&A / Support! produces the filename
fragment QA__Support (non-alphanumeric characters other than
space/hyphen/underscore stripped, every space, including consecutive ones,
turned into an underscore), and the produced filename is prefixed with the
timestamp. -/
theorem C4_sanitized_name_amended (timestamp : String) :
    GetPostText.safe_category_name ("Q&A / Support!") = "QA__Support"
    ∧ GetPostText.output_filename timestamp ("Q&A / Support!") =
        timestamp ++ "_QA__Support_posts.csv" := by
  refine ⟨by decide, ?_⟩
  show timestamp ++
      ("_" ++ (GetPostText.safe_category_name ("Q&A / Support!") ++ "_posts.csv")) =
    timestamp ++ "_QA__Support_posts.csv"
  exact congrArg (fun s => timestamp ++ s) (by decide)

namespace GetPostText

/-- When every record's keys are contained in the field names, writerows
writes exactly one projected row per record and raises nothing. -/
theorem writerowsAcc_ok (fieldnames : List RKey) :
    ∀ (rs : List Record) (acc : List (List PyVal)),
    (∀ r ∈ rs, ∀ k ∈ recordKeys r, k ∈ fieldnames) →
    writerowsAcc fieldnames rs acc =
      (acc ++ rs.map (fun r => fieldnames.map (fun k => (dictGet r k).getD (PyVal.str ""))),
       Option.none) := by
  intro rs
  induction rs with
  | nil =>
    intro acc _
    simp [writerowsAcc]
  | cons r rs ih =>
    intro acc h
    have hr : dict_to_list fieldnames r =
        Except.ok (fieldnames.map (fun k => (dictGet r k).getD (PyVal.str ""))) := by
      unfold dict_to_list
      rw [if_pos]
      apply List.all_eq_true.mpr
      intro k hk
      exact decide_eq_true (h r (List.mem_cons_self r rs) k hk)
    have hrest : ∀ r' ∈ rs, ∀ k ∈ recordKeys r', k ∈ fieldnames :=
      fun r' hr' => h r' (List.mem_cons_of_mem r hr')
    simp [writerowsAcc, hr, ih (acc ++ [fieldnames.map
      (fun k => (dictGet r k).getD (PyVal.str ""))]) hrest]

end GetPostText

/-- C8 counterexample: for the two-record list whose second record has a key
the first lacks, DictWriter raises ValueError after the first row, so the
file does not get one row per record with a clean finish. -/
theorem C8_header_and_rows_counterexample :
    ¬ ((GetPostText.save_posts_to_csv
          [[(some ("a"), PyVal.str ("1"))], [(some ("b"), PyVal.str ("2"))]]
          ("cat") ("out") ("ts")).map
        (fun fw => (fw.dataRows.length, fw.raised)) = some (2, Option.none)) := by
  decide

/-- C8 amended: for every non-empty posts list in which every record's key
set is contained in the first record's key set, save_posts_to_csv writes the
file with a header row equal to the first record's keys, followed by exactly
one row per record (each record projected onto the header fields, absent
fields written as the empty string) and no exception; a record with a key
outside the first record's keys instead raises ValueError after the rows
before it. -/
theorem C8_header_and_rows_amended (posts : List Record)
    (category_name output_dir timestamp : String)
    (hne : posts ≠ [])
    (hsub : ∀ r ∈ posts, ∀ k ∈ recordKeys r, k ∈ recordKeys (posts.headD [])) :
    GetPostText.save_posts_to_csv posts category_name output_dir timestamp =
      some ⟨output_dir ++ ("/" ++ GetPostText.output_filename timestamp category_name),
            recordKeys (posts.headD []),
            posts.map (fun r => (recordKeys (posts.headD [])).map
              (fun k => (dictGet r k).getD (PyVal.str ""))),
            Option.none⟩
    ∧ (posts.map (fun r => (recordKeys (posts.headD [])).map
        (fun k => (dictGet r k).getD (PyVal.str "")))).length = posts.length := by
  have hemp : posts.isEmpty = false := by
    cases posts with
    | nil => exact absurd rfl hne
    | cons a l => simp
  refine ⟨?_, by simp⟩
  unfold GetPostText.save_posts_to_csv
  rw [hemp]
  simp only [Bool.false_eq_true, if_false]
  rw [GetPostText.writerowsAcc_ok (recordKeys (posts.headD [])) posts [] hsub]
  simp

/-- C8 witness: two records sharing the single key k; the file gets the
header row [k] and one projected row per record with no exception. -/
theorem C8_header_and_rows_witness :
    GetPostText.save_posts_to_csv
        [[(some ("k"), PyVal.str ("1"))], [(some ("k"), PyVal.str ("2"))]]
        ("c") ("o") ("t") =
      some ⟨"o" ++ ("/" ++ GetPostText.output_filename ("t") ("c")),
            recordKeys (([[(some ("k"), PyVal.str ("1"))],
              [(some ("k"), PyVal.str ("2"))]] : List Record).headD []),
            ([[(some ("k"), PyVal.str ("1"))], [(some ("k"), PyVal.str ("2"))]] :
              List Record).map (fun r =>
                (recordKeys (([[(some ("k"), PyVal.str ("1"))],
                  [(some ("k"), PyVal.str ("2"))]] : List Record).headD [])).map
                  (fun k => (dictGet r k).getD (PyVal.str ""))),
            Option.none⟩
    ∧ (([[(some ("k"), PyVal.str ("1"))], [(some ("k"), PyVal.str ("2"))]] :
          List Record).map (fun r =>
            (recordKeys (([[(some ("k"), PyVal.str ("1"))],
              [(some ("k"), PyVal.str ("2"))]] : List Record).headD [])).map
              (fun k => (dictGet r k).getD (PyVal.str "")))).length =
        ([[(some ("k"), PyVal.str ("1"))], [(some ("k"), PyVal.str ("2"))]] :
          List Record).length :=
  C8_header_and_rows_amended
    [[(some ("k"), PyVal.str ("1"))], [(some ("k"), PyVal.str ("2"))]]
    ("c") ("o") ("t") (by decide) (by decide)

namespace TestConnection

theorem splitOnCh_ne_nil (sep : Char) : ∀ l : List Char, splitOnCh sep l ≠ [] := by
  intro l
  cases l with
  | nil => simp [splitOnCh]
  | cons c rest =>
    by_cases h : c = sep
    · simp [splitOnCh, h]
    · cases hsplit : splitOnCh sep rest with
      | nil => simp [splitOnCh, h, hsplit]
      | cons p ps => simp [splitOnCh, h, hsplit]

/-- Every character of a list is the separator or lies in one of the split
pieces. -/
theorem mem_splitOnCh (sep : Char) :
    ∀ (l : List Char) (c : Char), c ∈ l →
      c = sep ∨ ∃ p, p ∈ splitOnCh sep l ∧ c ∈ p := by
  intro l
  induction l with
  | nil => intro c hc; simp at hc
  | cons a rest ih =>
    intro c hc
    by_cases ha : a = sep
    · rcases List.mem_cons.mp hc with rfl | hc'
      · exact Or.inl ha
      · rcases ih c hc' with h | ⟨p, hp, hcp⟩
        · exact Or.inl h
        · refine Or.inr ⟨p, ?_, hcp⟩
          simp only [splitOnCh, if_pos ha]
          exact List.mem_cons_of_mem _ hp
    · cases hsplit : splitOnCh sep rest with
      | nil => exact absurd hsplit (splitOnCh_ne_nil sep rest)
      | cons p ps =>
        have hres : splitOnCh sep (a :: rest) = (a :: p) :: ps := by
          simp only [splitOnCh, if_neg ha, hsplit]
        rcases List.mem_cons.mp hc with heq | hc'
        · exact Or.inr ⟨a :: p, by rw [hres]; exact List.mem_cons_self _ _,
            by rw [heq]; exact List.mem_cons_self _ _⟩
        · rcases ih c hc' with h | ⟨q, hq, hcq⟩
          · exact Or.inl h
          · rw [hsplit] at hq
            rcases List.mem_cons.mp hq with heq2 | hq'
            · exact Or.inr ⟨a :: q, by rw [hres, heq2]; exact List.mem_cons_self _ _,
                List.mem_cons_of_mem _ hcq⟩
            · exact Or.inr ⟨q, by rw [hres]; exact List.mem_cons_of_mem _ hq', hcq⟩

theorem isLabelCore_chars : ∀ l, isLabelCore l = true →
    ∀ c ∈ l, (c.isAlphanum || c = '-') = true := by
  intro l
  induction l with
  | nil => intro h; simp [isLabelCore] at h
  | cons a rest ih =>
    intro h c hc
    cases rest with
    | nil =>
      rcases List.mem_cons.mp hc with rfl | hc'
      · have ha : c.isAlphanum = true := by simpa [isLabelCore] using h
        simp [ha]
      · simp at hc'
    | cons b rest2 =>
      have h' : (a.isAlphanum || decide (a = '-')) = true ∧
          isLabelCore (b :: rest2) = true := by
        simpa [isLabelCore, Bool.and_eq_true] using h
      rcases List.mem_cons.mp hc with rfl | hc'
      · simpa using h'.1
      · exact ih h'.2 c hc'

theorem isLabel_chars : ∀ l, isLabel l = true →
    ∀ c ∈ l, (c.isAlphanum || c = '-') = true := by
  intro l h c hc
  cases l with
  | nil => simp [isLabel] at h
  | cons a rest =>
    have h' : a.isAlphanum = true ∧ isLabelCore rest = true := by
      have h2 := h
      simp only [isLabel, Bool.and_eq_true] at h2
      exact ⟨h2.1.1, h2.1.2⟩
    rcases List.mem_cons.mp hc with rfl | hc'
    · simp [h'.1]
    · exact isLabelCore_chars rest h'.2 c hc'

theorem isTLD_chars : ∀ l, isTLD l = true →
    ∀ c ∈ l, (c.isAlphanum || c = '-') = true := by
  intro l h c hc
  have h' : l.all (fun c => c.isAlpha) = true := by
    simp only [isTLD, Bool.and_eq_true] at h
    exact h.2
  have halpha := List.all_eq_true.mp h' c hc
  have h2 : c.isAlphanum = true := by
    unfold Char.isAlphanum
    simp only at halpha
    rw [halpha, Bool.true_or]
  simp [h2]

theorem checkParts_chars : ∀ ps, checkParts ps = true →
    ∀ p ∈ ps, ∀ c ∈ p, (c.isAlphanum || c = '-') = true := by
  intro ps
  induction ps with
  | nil => intro h; simp [checkParts] at h
  | cons p ps ih =>
    intro h q hq c hc
    cases ps with
    | nil => simp [checkParts] at h
    | cons p2 ps2 =>
      cases ps2 with
      | nil =>
        have h' : isLabel p = true ∧ isTLD p2 = true := by
          simpa [checkParts, Bool.and_eq_true] using h
        rcases List.mem_cons.mp hq with rfl | hq'
        · exact isLabel_chars q h'.1 c hc
        · rcases List.mem_cons.mp hq' with rfl | hq''
          · exact isTLD_chars q h'.2 c hc
          · simp at hq''
      | cons p3 ps3 =>
        have h' : isLabel p = true ∧ checkParts (p2 :: p3 :: ps3) = true := by
          simpa [checkParts, Bool.and_eq_true] using h
        rcases List.mem_cons.mp hq with rfl | hq'
        · exact isLabel_chars q h'.1 c hc
        · exact ih h'.2 q hq' c hc

/-- Every character of a string accepted by the domain regex is
alphanumeric, a hyphen, a dot, or the optional trailing newline. -/
theorem domainMatch_chars (l : List Char) (h : domainMatch l = true) :
    ∀ c ∈ l, (c.isAlphanum || c = '-' || c = '.' || c = '\n') = true := by
  intro c hc
  simp only [domainMatch] at h
  by_cases hlast : l.getLast? = some '\n'
  · rw [if_pos hlast] at h
    have hl : l.dropLast ++ ['\n'] = l :=
      List.dropLast_append_getLast? '\n' (Option.mem_def.mpr hlast)
    rw [← hl] at hc
    rcases List.mem_append.mp hc with hc1 | hc2
    · rcases mem_splitOnCh ('.') l.dropLast c hc1 with rfl | ⟨p, hp, hcp⟩
      · simp
      · have hg := checkParts_chars _ h p hp c hcp
        rcases Bool.or_eq_true_iff.mp hg with h1 | h1 <;> simp [h1]
    · have : c = '\n' := by simpa using hc2
      simp [this]
  · rw [if_neg hlast] at h
    rcases mem_splitOnCh ('.') l c hc with rfl | ⟨p, hp, hcp⟩
    · simp
    · have hg := checkParts_chars _ h p hp c hcp
      rcases Bool.or_eq_true_iff.mp hg with h1 | h1 <;> simp [h1]

end TestConnection

namespace TestConnection

/-- C5: a host string whose cleaned form the domain regex rejects makes
validate_domain raise the descriptive ValueError and makes test_connection
fail before any network call is attempted (the request trace is empty); a
host string whose cleaned form the regex accepts makes validate_domain
return exactly the stripped form. -/
theorem C5_validation_before_network (domain api_token : String)
    (net : String → ConnOutcome) :
    (domainMatch (cleanDomain domain.data) = false →
      validate_domain domain = Except.error invalidDomainMsg
      ∧ (test_connection api_token domain net).1 = Except.error invalidDomainMsg
      ∧ (test_connection api_token domain net).2 = [])
    ∧ (domainMatch (cleanDomain domain.data) = true →
      validate_domain domain = Except.ok (String.mk (cleanDomain domain.data))) := by
  constructor
  · intro hf
    have hv : validate_domain domain = Except.error invalidDomainMsg := by
      simp only [validate_domain, hf]
      simp
    refine ⟨hv, ?_, ?_⟩ <;> simp only [test_connection, hv]
  · intro ht
    simp only [validate_domain, ht]
    simp

/-- C5 witness: the host string not a domain is rejected, validate_domain
raises the validation error, and test_connection issues no request. -/
theorem C5_validation_before_network_witness :
    validate_domain ("not a domain") = Except.error invalidDomainMsg
    ∧ (test_connection ("token") ("not a domain")
        (fun _ => ConnOutcome.transportFailure ("down"))).1 =
          Except.error invalidDomainMsg
    ∧ (test_connection ("token") ("not a domain")
        (fun _ => ConnOutcome.transportFailure ("down"))).2 = [] :=
  (C5_validation_before_network ("not a domain") ("token")
    (fun _ => ConnOutcome.transportFailure ("down"))).1 (by decide)

/-- C10: validate_domain is idempotent on its successes; the value it
returns is returned unchanged (and accepted) when validated again. -/
theorem C10_validate_domain_idempotent (d v : String)
    (h : validate_domain d = Except.ok v) :
    validate_domain v = Except.ok v := by
  simp only [validate_domain] at h
  by_cases hm : domainMatch (cleanDomain d.data) = true
  · rw [if_pos hm] at h
    have hv : String.mk (cleanDomain d.data) = v := by
      injection h
    have hvdata : v.data = cleanDomain d.data := by
      rw [← hv]
    have hchars := domainMatch_chars (cleanDomain d.data) hm
    have hcolon : (':') ∉ cleanDomain d.data := by
      intro hmem
      exact absurd (hchars (':') hmem) (by decide)
    have hslash : ('/') ∉ cleanDomain d.data := by
      intro hmem
      exact absurd (hchars ('/') hmem) (by decide)
    have hsp : stripProtocol (cleanDomain d.data) = cleanDomain d.data := by
      have hc8 : ¬ ((cleanDomain d.data).take 8 = ("https://").data) := by
        intro h8
        exact hcolon (List.take_subset 8 _ (by rw [h8]; decide))
      have hc7 : ¬ ((cleanDomain d.data).take 7 = ("http://").data) := by
        intro h7
        exact hcolon (List.take_subset 7 _ (by rw [h7]; decide))
      simp only [stripProtocol, if_neg hc8, if_neg hc7]
    have hrs : rstripSlashes (cleanDomain d.data) = cleanDomain d.data := by
      unfold rstripSlashes
      cases hw : (cleanDomain d.data).reverse with
      | nil =>
        have hnil : cleanDomain d.data = [] := by
          simpa using congrArg List.reverse hw
        rw [hnil]
        rfl
      | cons a rest =>
        have ha : a ∈ cleanDomain d.data := by
          have : a ∈ (cleanDomain d.data).reverse := by
            rw [hw]
            exact List.mem_cons_self _ _
          exact List.mem_reverse.mp this
        have hane : ¬ (a = '/') := fun he => hslash (he ▸ ha)
        rw [List.dropWhile_cons, if_neg (by simpa using hane), ← hw,
          List.reverse_reverse]
    have hclean : cleanDomain v.data = v.data := by
      rw [hvdata]
      show rstripSlashes (stripProtocol (cleanDomain d.data)) = cleanDomain d.data
      rw [hsp, hrs]
    simp only [validate_domain]
    rw [hclean, hvdata, if_pos hm, hv]
  · rw [if_neg hm] at h
    exact absurd h (by simp)

/-- C10 witness: validating the value already returned for
https://example.com/ returns it unchanged. -/
theorem C10_validate_domain_idempotent_witness :
    validate_domain ("example.com") = Except.ok ("example.com") :=
  C10_validate_domain_idempotent ("https://example.com/") ("example.com") rfl

end TestConnection

/-- C7 counterexample: the body with header postKey,title and the single
data row a,b,c decodes to exactly one record, but that record carries the
extra restkey None holding the surplus cell, so its key set is not exactly
postKey and title. -/
theorem C7_decode_one_row_counterexample :
    (csvDictRead ("postKey,title" ++ "\n" ++ "a,b,c")).length = 1
    ∧ Option.none ∈
        ((csvDictRead ("postKey,title" ++ "\n" ++ "a,b,c")).headD []).map Prod.fst := by
  decide

/-- C7 amended: decoding rows with header postKey,title and exactly one
non-blank data row with at most two cells yields exactly one record whose
keys are exactly postKey and title (a missing second cell is filled with the
restval None); a data row with more than two cells instead adds the restkey
None entry holding the surplus cells. -/
theorem C7_decode_one_row_amended (row : List String)
    (hne : row ≠ []) (hlen : row.length ≤ 2) :
    ∃ rec, csvRecordsOfRows [["postKey", "title"], row] = [rec]
      ∧ rec.map Prod.fst = [some ("postKey"), some ("title")] := by
  cases row with
  | nil => exact absurd rfl hne
  | cons a rest =>
    cases rest with
    | nil => exact ⟨_, rfl, rfl⟩
    | cons b rest2 =>
      cases rest2 with
      | nil => exact ⟨_, rfl, rfl⟩
      | cons c rest3 => simp at hlen

/-- C7 witness: the single two-cell data row K,T under header postKey,title
yields one record with keys exactly postKey and title. -/
theorem C7_decode_one_row_amended_witness :
    ∃ rec, csvRecordsOfRows [["postKey", "title"], ["K", "T"]] = [rec]
      ∧ rec.map Prod.fst = [some ("postKey"), some ("title")] :=
  C7_decode_one_row_amended (["K", "T"]) (by decide) (by decide)
